import Mathlib

/-!
Verification of the crop-region geometry engine of an in-browser image
editor.  The JavaScript source (canvas module) is shallowly embedded:
numeric screen/image coordinates are rationals, pixels are natural-number
colour codes, the DOM canvas APIs used by the code are modelled from their
documented semantics, and each event handler becomes a pure function on an
explicit state.
-/

namespace ImageEditor

/-- The crop rectangle, in screen (canvas) pixel space.  Width and height
may be negative during interactive drags. -/
structure Area where
  x : ℚ
  y : ℚ
  width : ℚ
  height : ℚ
  deriving DecidableEq, Repr

/-- The 2D affine matrix owned by the transform module: `a, d` are the
horizontal/vertical scales, `e, f` the translation, `b, c` stay zero. -/
structure Transform where
  a : ℚ
  b : ℚ
  c : ℚ
  d : ℚ
  e : ℚ
  f : ℚ
  deriving DecidableEq, Repr

/-- The horizontal/vertical flip flags, each `1` or `-1`. -/
structure Flip where
  flipH : ℤ
  flipV : ℤ
  deriving DecidableEq, Repr

/-- A decoded source image: dimensions plus a pixel lookup returning a
colour code (`0` is transparent black, what a canvas reads off-surface). -/
structure SourceImage where
  width : ℕ
  height : ℕ
  pixel : ℕ → ℕ → ℕ

/-- The result of a `getImageData` call: a `width × height` block of
pixels. -/
structure ImageData where
  width : ℕ
  height : ℕ
  pixel : ℕ → ℕ → ℕ

/-- JavaScript `Math.round`: rounds half-way cases toward positive
infinity. -/
def jsRound (q : ℚ) : ℤ := ⌊q + 1 / 2⌋

/-- Device-space content of the offscreen surface after
`ctx.translate(tx, ty); ctx.drawImage(image, 0, 0, w, h)` with rotation `0`
and flip identity (the configuration the extraction claims fix; the
extraction failure behaviour is independent of the drawn content).  A
device pixel shows the image pixel it is aligned with, transparent black
otherwise. -/
def drawnPixel (img : SourceImage) (tx ty : ℚ) (px py : ℤ) : ℕ :=
  let u : ℚ := (px : ℚ) - tx
  let v : ℚ := (py : ℚ) - ty
  if u.den = 1 ∧ v.den = 1 ∧ 0 ≤ u.num ∧ u.num < (img.width : ℤ) ∧
      0 ≤ v.num ∧ v.num < (img.height : ℤ) then
    img.pixel u.num.toNat v.num.toNat
  else 0

/-- DOM `CanvasRenderingContext2D.getImageData(sx, sy, sw, sh)` on a
`cw × ch` surface whose device-space content is `content`, modelled from
the HTML specification: a zero `sw` or `sh` throws (here: `none`); a
negative `sw`/`sh` flips the source rectangle; pixels outside the surface
read transparent black. -/
def ctxGetImageData (content : ℤ → ℤ → ℕ) (cw ch : ℕ) (sx sy sw sh : ℤ) :
    Option ImageData :=
  if sw = 0 ∨ sh = 0 then none
  else
    let sx' := if sw < 0 then sx + sw else sx
    let sy' := if sh < 0 then sy + sh else sy
    some { width := sw.natAbs, height := sh.natAbs,
           pixel := fun i j =>
             let px := sx' + (i : ℤ)
             let py := sy' + (j : ℤ)
             if 0 ≤ px ∧ px < (cw : ℤ) ∧ 0 ≤ py ∧ py < (ch : ℤ) then
               content px py
             else 0 }

/-- Source `getImageData(image, area, ctx)`: draws the image on the
context (translated by `(tx, ty)`) and reads the rectangle
`(area.x, area.y, area.width, area.height)` back. -/
def getImageData (img : SourceImage) (tx ty : ℚ) (cw ch : ℕ)
    (ax ay aw ah : ℤ) : Option ImageData :=
  ctxGetImageData (drawnPixel img tx ty) cw ch ax ay aw ah

/-- Source `getCroppedCanvas(image)`: sizes an offscreen canvas to the
unscaled viewport, translates by `(e/scale, f/scale)`, converts the Area
to image space by rounding each component divided by the scale, extracts
that block and returns it as the final raster (the final canvas is resized
to the block and the block is put back at the origin, so the raster equals
the extracted block). -/
def getCroppedCanvas (img : SourceImage) (t : Transform) (area : Area)
    (canvasWidth canvasHeight : ℕ) : Option ImageData :=
  let scale := t.a
  let translatedX := t.e / scale
  let translatedY := t.f / scale
  let taX := jsRound (area.x / scale)
  let taY := jsRound (area.y / scale)
  let taW := jsRound (area.width / scale)
  let taH := jsRound (area.height / scale)
  let cw := (jsRound ((canvasWidth : ℚ) / scale)).toNat
  let ch := (jsRound ((canvasHeight : ℚ) / scale)).toNat
  getImageData img translatedX translatedY cw ch taX taY taW taH

/-- Width of an extraction result (`0` when extraction failed). -/
def croppedWidth (o : Option ImageData) : ℕ := o.elim 0 ImageData.width

/-- Height of an extraction result (`0` when extraction failed). -/
def croppedHeight (o : Option ImageData) : ℕ := o.elim 0 ImageData.height

/-- Pixel `(i, j)` of an extraction result (`0` when extraction failed). -/
def croppedPixel (o : Option ImageData) (i j : ℕ) : ℕ :=
  o.elim 0 fun d => d.pixel i j

/-- Source `selectArea(x, y)`: a fresh drag grows the rectangle from its
origin toward the pointer. -/
def selectArea (area : Area) (x y : ℚ) : Area :=
  { area with width := x - area.x, height := y - area.y }

/-- Source `resizeArea(x, y)`: direction-aware resize.  The direction is
the character list of the JavaScript direction string; the vertical part
tests the first character, the horizontal part tests membership. -/
def resizeArea (area : Area) (dir : List Char) (x y : ℚ) : Area :=
  let a1 :=
    if dir.head? = some 'n' then
      { area with height := area.y - y + area.height, y := y }
    else if dir.head? = some 's' then
      { area with height := y - area.y }
    else area
  if 'w' ∈ dir then
    { a1 with width := a1.x - x + a1.width, x := x }
  else if 'e' ∈ dir then
    { a1 with width := x - a1.x }
  else a1

/-- The eight direction strings the direction detector can produce (as
character lists), the vertical character first. -/
def validDirections : List (List Char) :=
  [['n'], ['n', 'e'], ['n', 'w'], ['s'], ['s', 'e'], ['s', 'w'], ['e'], ['w']]

/-- Source `updatePoint(point, pointName, dimensionName, offset, scale)`
restricted to one axis: returns the new `area[pointName]`.  `point` is the
pointer coordinate, `pp` the grab offset (`pointerPosition[pointName]`),
`areaDim` the Area's dimension on this axis, `dimension` the image's
dimension, `offset` the translation component and `scale` the transform
scale. -/
def updatePoint (point pp areaDim dimension offset scale : ℚ) : ℚ :=
  let diff := point - pp
  let scaledDimension := dimension * scale
  if 0 < areaDim then
    if offset + 8 > diff ∧ offset - 8 < diff then offset
    else if offset + 8 + scaledDimension > diff + areaDim ∧
        offset - 8 + scaledDimension < diff + areaDim then
      offset + scaledDimension - areaDim
    else diff
  else
    let diff2 := diff + areaDim
    if offset + 8 > diff2 ∧ offset - 8 < diff2 then offset - areaDim
    else if offset + 8 + scaledDimension > diff ∧
        offset - 8 + scaledDimension < diff then
      offset + scaledDimension
    else diff

/-- Modelled from the claim as amended: per-axis snap target for a move
with snapping.  The computed position `pos` of the rectangle origin snaps
so that the edge landing strictly within `8` screen pixels of the nearer
image boundary (the origin-side boundary checked first) becomes exactly
flush with it; otherwise the computed position is used unchanged.  The
check is mirrored when the Area dimension is negative. -/
def snapSpecPoint (point pp areaDim dimension offset scale : ℚ) : ℚ :=
  let pos := point - pp
  let scaledDimension := dimension * scale
  if 0 < areaDim then
    if |pos - offset| < 8 then offset
    else if |pos + areaDim - (offset + scaledDimension)| < 8 then
      offset + scaledDimension - areaDim
    else pos
  else
    if |pos + areaDim - offset| < 8 then offset - areaDim
    else if |pos - (offset + scaledDimension)| < 8 then
      offset + scaledDimension
    else pos

/-- Source `moveArea(x, y)`: with snapping enabled each axis goes through
`updatePoint` with the transform's translation and scale; otherwise the
rectangle translates with the grab offset. -/
def moveArea (snap : Bool) (area : Area) (ppx ppy : ℚ) (t : Transform)
    (imgW imgH : ℚ) (x y : ℚ) : Area :=
  if snap then
    { area with
      x := updatePoint x ppx area.width imgW t.e t.a,
      y := updatePoint y ppy area.height imgH t.f t.a }
  else
    { area with x := x - ppx, y := y - ppy }

/-- The gesture a pointer-down is classified into. -/
inductive Gesture where
  | drag
  | move
  | resize
  | select
  deriving DecidableEq, Repr

/-- Source `handlePointerdown(event)`: the gesture classification.  A
non-primary button or a visible modal panel aborts (`none`).  Cut mode
forces `resize`.  Otherwise: shift or disabled selection gives `drag`;
ctrl (or a mobile context) over a drawn Area with the pointer inside it
gives `move`; a detected direction on a drawn Area gives `resize`; the
default starts a fresh selection.  `inside` is the result of
`isInsideArea(x, y)` and `dir` the result of `setDirection(x, y)`. -/
def handlePointerdown (which : ℕ) (panelVisible cutMode shift ctrl mobile
    selectionDisabled : Bool) (area : Area) (inside : Bool)
    (dir : List Char) : Option Gesture :=
  if which ≠ 1 ∨ panelVisible then none
  else if cutMode then some .resize
  else if shift ∨ selectionDisabled then some .drag
  else if (ctrl ∨ mobile) ∧ (area.width ≠ 0 ∧ area.height ≠ 0) ∧ inside then
    some .move
  else if dir ≠ [] ∧ (area.width ≠ 0 ∧ area.height ≠ 0) then some .resize
  else some .select

/-- The observable state of the pointer-move / redraw loop: the in-flight
flag, the coordinate pairs dispatched to the active per-state mutator, the
redraw callbacks scheduled for the current animation frame, and the
`drawCanvas` invocations performed so far. -/
structure MoveLoopState where
  handlingMove : Bool
  dispatched : List (ℚ × ℚ)
  scheduled : ℕ
  drawCalls : ℕ
  deriving DecidableEq, Repr

/-- The loop state at the start of a frame, before any move event. -/
def initMoveLoopState : MoveLoopState :=
  { handlingMove := false, dispatched := [], scheduled := 0, drawCalls := 0 }

/-- The clamp applied to each client coordinate in
`handlePointermove`. -/
def clampCoord (c : ℚ) : ℚ := if 0 < c then c else 0

/-- Source `handlePointermove({clientX, clientY})`: when the in-flight
flag is set the event is dropped; otherwise the flag is raised, the
clamped coordinates are dispatched to the active mutator and one redraw
callback is scheduled for the next animation frame. -/
def handlePointermove (s : MoveLoopState) (e : ℚ × ℚ) : MoveLoopState :=
  if s.handlingMove then s
  else
    { handlingMove := true,
      dispatched := s.dispatched ++ [(clampCoord e.1, clampCoord e.2)],
      scheduled := s.scheduled + 1,
      drawCalls := s.drawCalls }

/-- Run the animation-frame callbacks scheduled so far: each invokes
`drawCanvas` once and clears the in-flight flag. -/
def fireAnimationFrame (s : MoveLoopState) : MoveLoopState :=
  { handlingMove := if s.scheduled = 0 then s.handlingMove else false,
    dispatched := s.dispatched,
    scheduled := 0,
    drawCalls := s.drawCalls + s.scheduled }

/-- A burst of pointer-move events within a single animation frame,
followed by that frame firing. -/
def processBurst (events : List (ℚ × ℚ)) : MoveLoopState :=
  fireAnimationFrame (events.foldl handlePointermove initMoveLoopState)

/-- The externally observable effects of `handlePointerup`. -/
structure PointerupEffects where
  cropEnabled : Bool
  cursorTracking : Bool
  keepMask : Bool
  cursorReset : Bool
  cropPanelReset : Bool
  deriving DecidableEq, Repr

/-- Source `handlePointerup()`: with both Area dimensions non-zero the
crop button is shown and cursor-feedback tracking starts
(`allowCropAreaModification`); otherwise the mask flag is cleared, the
cursor reset to default and the crop panel notified to reset its
inputs. -/
def handlePointerup (area : Area) (keepMask : Bool) : PointerupEffects :=
  if area.width ≠ 0 ∧ area.height ≠ 0 then
    { cropEnabled := true, cursorTracking := true, keepMask := keepMask,
      cursorReset := false, cropPanelReset := false }
  else
    { cropEnabled := false, cursorTracking := false, keepMask := false,
      cursorReset := true, cropPanelReset := true }

/-- The vertical half of `handleDoubleClick`: the block on `y`/`height`,
with separate arithmetic for positive and negative heights. -/
def doubleClickVertical (t : Transform) (imgH : ℚ) (dir : List Char)
    (area : Area) : Area :=
  if 0 < area.height then
    if 'n' ∈ dir then
      { area with height := area.height + area.y - t.f, y := t.f }
    else if 's' ∈ dir then
      { area with
        height := t.f + area.height + imgH * t.a - (area.y + area.height) }
    else area
  else
    if 'n' ∈ dir then
      { area with
        height := area.height - (imgH * t.a - area.y) - t.f,
        y := imgH * t.a + t.f }
    else if 's' ∈ dir then
      { area with height := area.height + t.f - (area.y + area.height) }
    else area

/-- The horizontal half of `handleDoubleClick`: the block on `x`/`width`,
with separate arithmetic for positive and negative widths. -/
def doubleClickHorizontal (t : Transform) (imgW : ℚ) (dir : List Char)
    (area : Area) : Area :=
  if 0 < area.width then
    if 'w' ∈ dir then
      { area with width := area.width + area.x - t.e, x := t.e }
    else if 'e' ∈ dir then
      { area with width := t.e + area.width + imgW * t.a - (area.x + area.width) }
    else area
  else
    if 'w' ∈ dir then
      { area with
        width := area.width - (imgW * t.a - area.x) - t.e,
        x := imgW * t.a + t.e }
    else if 'e' ∈ dir then
      { area with width := area.width + t.e - (area.x + area.width) }
    else area

/-- Source `handleDoubleClick()`: with a drawn Area (both dimensions
non-zero), runs the vertical block then the horizontal block, extending
the edge named by the last resize direction to the transformed image
boundary; otherwise does nothing. -/
def handleDoubleClick (t : Transform) (imgW imgH : ℚ) (dir : List Char)
    (area : Area) : Area :=
  if area.width = 0 ∨ area.height = 0 then area
  else doubleClickHorizontal t imgW dir (doubleClickVertical t imgH dir area)

/-- The per-image editing-session singletons plus the module flags touched
by `loadImageFile`. -/
structure EditorState where
  rotation : ℚ
  area : Area
  flip : Flip
  transform : Transform
  keepMask : Bool
  cutModeEnabled : Bool
  cropBtnVisible : Bool
  deriving DecidableEq, Repr

/-- Modelled from the spec: `scaleImageToFitCanvas(image)` (zoom module,
not under src/) computes `scale = min(canvasWidth / image.width,
canvasHeight / image.height)` and sets the matrix to that uniform scale
with the image centered in the viewport. -/
def scaleImageToFitCanvas (imgW imgH cw ch : ℚ) : Transform :=
  let scale := min (cw / imgW) (ch / imgH)
  { a := scale, b := 0, c := 0, d := scale,
    e := (cw - imgW * scale) / 2, f := (ch - imgH * scale) / 2 }

/-- Modelled from the spec: `resetArea()` (area module, not under src/)
with no argument empties the rectangle. -/
def emptyArea : Area := { x := 0, y := 0, width := 0, height := 0 }

/-- Source `loadImageFile(blobUrl)`: clears the mask flag, hides the crop
button, resets the rotation (`resetRotation`, modelled from the spec as
angle `0`) and the Area (`resetArea`), re-fits the transform to the
viewport once the image decodes, and disables cut mode.  No flip reset is
invoked. -/
def loadImageFile (s : EditorState) (imgW imgH cw ch : ℚ) : EditorState :=
  { rotation := 0,
    area := emptyArea,
    flip := s.flip,
    transform := scaleImageToFitCanvas imgW imgH cw ch,
    keepMask := false,
    cutModeEnabled := false,
    cropBtnVisible := false }

lemma jsRound_intCast (n : ℤ) : jsRound (n : ℚ) = n := by
  unfold jsRound
  rw [Int.floor_eq_iff]
  constructor
  · norm_num
  · norm_num

lemma jsRound_natCast (n : ℕ) : jsRound (n : ℚ) = n := by
  exact_mod_cast jsRound_intCast (n : ℤ)

lemma drawnPixel_zero (img : SourceImage) (px py : ℤ) :
    drawnPixel img 0 0 px py =
      if 0 ≤ px ∧ px < (img.width : ℤ) ∧ 0 ≤ py ∧ py < (img.height : ℤ) then
        img.pixel px.toNat py.toNat
      else 0 := by
  unfold drawnPixel
  norm_num [Rat.den_intCast, Rat.num_intCast]

lemma getCroppedCanvas_id_eq (img : SourceImage) (cw ch x y w h : ℕ)
    (hw : w ≠ 0) (hh : h ≠ 0) :
    getCroppedCanvas img ⟨1, 0, 0, 1, 0, 0⟩ ⟨(x : ℚ), (y : ℚ), (w : ℚ), (h : ℚ)⟩ cw ch =
      some { width := w, height := h,
             pixel := fun i j =>
               if 0 ≤ (x : ℤ) + (i : ℤ) ∧ (x : ℤ) + (i : ℤ) < (cw : ℤ) ∧
                   0 ≤ (y : ℤ) + (j : ℤ) ∧ (y : ℤ) + (j : ℤ) < (ch : ℤ) then
                 drawnPixel img 0 0 ((x : ℤ) + (i : ℤ)) ((y : ℤ) + (j : ℤ))
               else 0 } := by
  unfold getCroppedCanvas getImageData ctxGetImageData
  simp only [div_one, div_zero, jsRound_natCast]
  rw [if_neg (by omega), if_neg (by omega), if_neg (by omega)]
  congr 1

/-- A sample 4 by 4 source image whose pixel colour encodes its coordinates
(`i + 10 j + 1`, never `0` inside the image). -/
def sampleImage : SourceImage := ⟨4, 4, fun i j => i + 10 * j + 1⟩

/-- The identity transform: scale `1`, translation `(0, 0)`. -/
def identityTransform : Transform := ⟨1, 0, 0, 1, 0, 0⟩

/-- C1 (amended). When the Area's width or height divided by the scale
rounds to exactly `0`, crop extraction fails (the zero-sized
`getImageData` read throws, rejecting the asynchronous result) and no
raster is produced. -/
theorem c1_zero_resolved_dimension_rejects (img : SourceImage)
    (t : Transform) (area : Area) (cw ch : ℕ)
    (h : jsRound (area.width / t.a) = 0 ∨ jsRound (area.height / t.a) = 0) :
    getCroppedCanvas img t area cw ch = none := by
  unfold getCroppedCanvas getImageData ctxGetImageData
  rcases h with h | h <;> simp [h]

/-- C1 witness: the empty Area `{0, 0, 0, 0}` at scale `1` resolves to a
zero-sized region and extraction is rejected. -/
theorem c1_zero_resolved_dimension_rejects_witness :
    (jsRound ((0 : ℚ) / 1) = 0 ∨ jsRound ((0 : ℚ) / 1) = 0) ∧
    getCroppedCanvas sampleImage identityTransform ⟨0, 0, 0, 0⟩ 10 10 = none := by
  refine ⟨Or.inl (by norm_num [jsRound]), ?_⟩
  exact c1_zero_resolved_dimension_rejects sampleImage identityTransform
    ⟨0, 0, 0, 0⟩ 10 10 (Or.inl (by norm_num [jsRound, identityTransform]))

/-- C1 counterexample. The claim also demands failure for a negative
resolved width, but an Area of width `-2` (scale `1`) resolves to `-2 ≤ 0`
and extraction still produces a raster: `getImageData` normalises the
flipped rectangle instead of throwing. -/
theorem c1_negative_width_produces_raster :
    jsRound ((-2 : ℚ) / 1) ≤ 0 ∧
    (getCroppedCanvas sampleImage identityTransform ⟨2, 0, -2, 2⟩ 10 10).isSome = true := by
  constructor
  · norm_num [jsRound]
  · norm_num [getCroppedCanvas, getImageData, ctxGetImageData, jsRound,
      identityTransform]

/-- C2 (amended). At scale `1`, translation `(0, 0)`, rotation `0` and
flip identity, extracting an Area `(x, y, w, h)` with `w, h > 0` that lies
inside the source image and inside the viewport-sized offscreen canvas
produces a `w times h` raster equal to the source's sub-block at
`(x, y)`.  (Outside the viewport the offscreen surface reads transparent,
so the viewport bound is required; see the counterexample.) -/
theorem c2_extraction_roundtrip_within_viewport (img : SourceImage)
    (cw ch x y w h i j : ℕ) (hw : 0 < w) (hh : 0 < h)
    (hxw : x + w ≤ img.width) (hyh : y + h ≤ img.height)
    (hcw : x + w ≤ cw) (hch : y + h ≤ ch) (hi : i < w) (hj : j < h) :
    (getCroppedCanvas img identityTransform ⟨(x : ℚ), (y : ℚ), (w : ℚ), (h : ℚ)⟩ cw ch).isSome = true ∧
    croppedWidth (getCroppedCanvas img identityTransform ⟨(x : ℚ), (y : ℚ), (w : ℚ), (h : ℚ)⟩ cw ch) = w ∧
    croppedHeight (getCroppedCanvas img identityTransform ⟨(x : ℚ), (y : ℚ), (w : ℚ), (h : ℚ)⟩ cw ch) = h ∧
    croppedPixel (getCroppedCanvas img identityTransform ⟨(x : ℚ), (y : ℚ), (w : ℚ), (h : ℚ)⟩ cw ch) i j =
      img.pixel (x + i) (y + j) := by
  have heq := getCroppedCanvas_id_eq img cw ch x y w h (by omega) (by omega)
  rw [show identityTransform = (⟨1, 0, 0, 1, 0, 0⟩ : Transform) from rfl, heq]
  refine ⟨rfl, rfl, rfl, ?_⟩
  show (if _ then drawnPixel img 0 0 _ _ else 0) = _
  rw [if_pos (by omega), drawnPixel_zero, if_pos (by omega)]
  congr 1

/-- C2 witness: extracting `(1, 1, 2, 2)` from the sample image on a
`5 times 5` viewport reproduces the source pixel at `(2, 2)`. -/
theorem c2_extraction_roundtrip_witness :
    (0 < 2 ∧ 1 + 2 ≤ 4 ∧ 1 + 2 ≤ 5 ∧ 1 < 2) ∧
    croppedPixel (getCroppedCanvas sampleImage identityTransform ⟨1, 1, 2, 2⟩ 5 5) 1 1 =
      sampleImage.pixel 2 2 := by
  refine ⟨by norm_num, ?_⟩
  have h := c2_extraction_roundtrip_within_viewport sampleImage 5 5 1 1 2 2 1 1
    (by norm_num) (by norm_num) (by norm_num [sampleImage]) (by norm_num [sampleImage])
    (by norm_num) (by norm_num) (by norm_num) (by norm_num)
  exact_mod_cast h.2.2.2

/-- C2 counterexample. On a `2 times 2` viewport at scale `1`, the region
`(3, 0, 1, 1)` lies inside the `4 times 4` source image yet the extracted
pixel is transparent (`0`), not the source pixel `4`: the offscreen canvas
is sized to the viewport and clips the drawn image. -/
theorem c2_roundtrip_fails_beyond_viewport :
    (0 < 1 ∧ 3 + 1 ≤ 4) ∧
    croppedPixel (getCroppedCanvas sampleImage identityTransform ⟨3, 0, 1, 1⟩ 2 2) 0 0 = 0 ∧
    sampleImage.pixel 3 0 = 4 := by
  refine ⟨by norm_num, ?_, by norm_num [sampleImage]⟩
  norm_num [getCroppedCanvas, getImageData, ctxGetImageData, jsRound,
    identityTransform, croppedPixel, drawnPixel, sampleImage]

lemma snapCond1 (pos offset : ℚ) :
    (offset + 8 > pos ∧ offset - 8 < pos) ↔ |pos - offset| < 8 := by
  rw [abs_sub_lt_iff]
  constructor <;> rintro ⟨h1, h2⟩ <;> exact ⟨by linarith, by linarith⟩

lemma snapCond2 (pos areaDim offset sD : ℚ) :
    (offset + 8 + sD > pos + areaDim ∧ offset - 8 + sD < pos + areaDim) ↔
      |pos + areaDim - (offset + sD)| < 8 := by
  rw [abs_sub_lt_iff]
  constructor <;> rintro ⟨h1, h2⟩ <;> exact ⟨by linarith, by linarith⟩

lemma snapCond3 (pos offset sD : ℚ) :
    (offset + 8 + sD > pos ∧ offset - 8 + sD < pos) ↔
      |pos - (offset + sD)| < 8 := by
  rw [abs_sub_lt_iff]
  constructor <;> rintro ⟨h1, h2⟩ <;> exact ⟨by linarith, by linarith⟩

lemma updatePoint_eq_snapSpecPoint (point pp areaDim dimension offset scale : ℚ) :
    updatePoint point pp areaDim dimension offset scale =
      snapSpecPoint point pp areaDim dimension offset scale := by
  unfold updatePoint snapSpecPoint
  simp only [snapCond1, snapCond2, snapCond3]

/-- C3 (amended).  A move step with snapping enabled treats the axes
independently: on each axis, the moving rectangle snaps exactly flush with
the image boundary (through the current transform translation and scale)
when the computed edge lands strictly within `8` screen pixels of it (the
origin-side boundary is checked first); at a distance of `8` pixels or
more no snap occurs and the computed position is used unchanged; negative
Area dimensions mirror the check.  Formally, `moveArea` with snapping is
the per-axis snap specification `snapSpecPoint` applied to `x` with
`(e, a)` and to `y` with `(f, a)`. -/
theorem c3_move_snap_strict_tolerance (area : Area) (ppx ppy : ℚ)
    (t : Transform) (imgW imgH x y : ℚ) :
    moveArea true area ppx ppy t imgW imgH x y =
      { area with
        x := snapSpecPoint x ppx area.width imgW t.e t.a,
        y := snapSpecPoint y ppy area.height imgH t.f t.a } := by
  simp [moveArea, updatePoint_eq_snapSpecPoint]

/-- C3 counterexample.  Moving the rectangle `{0, 0, 10, 10}` (grab offset
`(100, 100)`, identity transform, `100 times 100` image) to pointer
`(108, 200)` computes an x-edge exactly `8` pixels from the left image
boundary `0`.  The claim's inclusive tolerance demands the edge snap flush
to `0`, but the code leaves the computed position `8` unchanged. -/
theorem c3_no_snap_at_exactly_eight :
    |((108 : ℚ) - 100) - 0| ≤ 8 ∧
    (moveArea true ⟨0, 0, 10, 10⟩ 100 100 ⟨1, 0, 0, 1, 0, 0⟩ 100 100 108 200).x = 8 ∧
    ((8 : ℚ)) ≠ 0 := by
  refine ⟨by norm_num, ?_, by norm_num⟩
  norm_num [moveArea, updatePoint]

/-- C4.  One resize step is direction-aware: with the pointer at
`(px, py)`, a direction containing `n` sets `y` to the pointer and grows
the height by the old gap (keeping the south edge fixed); `s` sets
`height = py - y` so the south edge lands on the pointer; `w` and `e` act
the same way on `x`/`width`; and the components of the axis a direction
does not mention are left unchanged. -/
theorem c4_resizeArea_direction_aware (area : Area) (dir : List Char)
    (px py : ℚ) (hdir : dir ∈ validDirections) :
    ('n' ∈ dir → (resizeArea area dir px py).y = py ∧
      (resizeArea area dir px py).height = area.y - py + area.height) ∧
    ('s' ∈ dir → (resizeArea area dir px py).y = area.y ∧
      (resizeArea area dir px py).height = py - area.y ∧
      (resizeArea area dir px py).y + (resizeArea area dir px py).height = py) ∧
    ('n' ∉ dir ∧ 's' ∉ dir → (resizeArea area dir px py).y = area.y ∧
      (resizeArea area dir px py).height = area.height) ∧
    ('w' ∈ dir → (resizeArea area dir px py).x = px ∧
      (resizeArea area dir px py).width = area.x - px + area.width) ∧
    ('e' ∈ dir → (resizeArea area dir px py).x = area.x ∧
      (resizeArea area dir px py).width = px - area.x ∧
      (resizeArea area dir px py).x + (resizeArea area dir px py).width = px) ∧
    ('w' ∉ dir ∧ 'e' ∉ dir → (resizeArea area dir px py).x = area.x ∧
      (resizeArea area dir px py).width = area.width) := by
  fin_cases hdir <;> simp [resizeArea, List.head?]

/-- C4 witness: resizing with direction `ne` and the pointer at
`(50, 7)`. -/
theorem c4_resizeArea_direction_aware_witness :
    (['n', 'e'] ∈ validDirections) ∧
    (resizeArea ⟨10, 20, 30, 40⟩ ['n', 'e'] 50 7).y = 7 ∧
    (resizeArea ⟨10, 20, 30, 40⟩ ['n', 'e'] 50 7).height = 20 - 7 + 40 ∧
    (resizeArea ⟨10, 20, 30, 40⟩ ['n', 'e'] 50 7).x +
      (resizeArea ⟨10, 20, 30, 40⟩ ['n', 'e'] 50 7).width = 50 := by
  have hmem : (['n', 'e'] : List Char) ∈ validDirections := by
    simp [validDirections]
  have h := c4_resizeArea_direction_aware ⟨10, 20, 30, 40⟩ ['n', 'e'] 50 7 hmem
  refine ⟨hmem, (h.1 (by simp)).1, (h.1 (by simp)).2, (h.2.2.2.2.1 (by simp)).2.2⟩

/-- C5.  Gesture classification on pointer-down (primary button, no modal
panel): cut mode forces `resize` outright; otherwise shift or disabled
selection gives `drag`; else ctrl (or a mobile context) over a drawn Area
with the pointer inside it gives `move`; else a detected resize direction
on a drawn Area gives `resize`; else a fresh selection starts. -/
theorem c5_pointerdown_classification (which : ℕ)
    (panelVisible cutMode shift ctrl mobile selectionDisabled : Bool)
    (area : Area) (inside : Bool) (dir : List Char)
    (hwhich : which = 1) (hpanel : panelVisible = false) :
    (cutMode = true →
      handlePointerdown which panelVisible cutMode shift ctrl mobile
        selectionDisabled area inside dir = some .resize) ∧
    (cutMode = false →
      ((shift = true ∨ selectionDisabled = true) →
        handlePointerdown which panelVisible cutMode shift ctrl mobile
          selectionDisabled area inside dir = some .drag) ∧
      (shift = false → selectionDisabled = false →
        (ctrl = true ∨ mobile = true) → area.width ≠ 0 → area.height ≠ 0 →
        inside = true →
        handlePointerdown which panelVisible cutMode shift ctrl mobile
          selectionDisabled area inside dir = some .move) ∧
      (shift = false → selectionDisabled = false →
        ¬((ctrl = true ∨ mobile = true) ∧ (area.width ≠ 0 ∧ area.height ≠ 0) ∧
          inside = true) →
        dir ≠ [] → area.width ≠ 0 → area.height ≠ 0 →
        handlePointerdown which panelVisible cutMode shift ctrl mobile
          selectionDisabled area inside dir = some .resize) ∧
      (shift = false → selectionDisabled = false →
        ¬((ctrl = true ∨ mobile = true) ∧ (area.width ≠ 0 ∧ area.height ≠ 0) ∧
          inside = true) →
        ¬(dir ≠ [] ∧ (area.width ≠ 0 ∧ area.height ≠ 0)) →
        handlePointerdown which panelVisible cutMode shift ctrl mobile
          selectionDisabled area inside dir = some .select)) := by
  subst hwhich hpanel
  refine ⟨fun hc => ?_, fun hc => ⟨fun h1 => ?_, fun h1 h2 h3 h4 h5 h6 => ?_,
    fun h1 h2 h3 h4 h5 h6 => ?_, fun h1 h2 h3 h4 => ?_⟩⟩ <;>
      subst hc <;> simp only [handlePointerdown] <;> rw [if_neg (by simp)]
  · rfl
  · rw [if_neg (by simp), if_pos h1]
  · rw [if_neg (by simp), if_neg (by simp [h1, h2]), if_pos ⟨h3, ⟨h4, h5⟩, h6⟩]
  · rw [if_neg (by simp), if_neg (by simp [h1, h2]), if_neg h3,
      if_pos ⟨h4, h5, h6⟩]
  · rw [if_neg (by simp), if_neg (by simp [h1, h2]), if_neg h3, if_neg h4]

/-- C5 witness: ctrl-down inside a drawn Area classifies as `move`. -/
theorem c5_pointerdown_classification_witness :
    (1 = 1) ∧ (false = false) ∧
    handlePointerdown 1 false false false true false false ⟨0, 0, 5, 5⟩ true
      ['e'] = some .move := by
  refine ⟨rfl, rfl, ?_⟩
  have h := c5_pointerdown_classification 1 false false false true false false
    ⟨0, 0, 5, 5⟩ true ['e'] rfl rfl
  exact (h.2 rfl).2.1 rfl rfl (Or.inl rfl) (by norm_num) (by norm_num) rfl

lemma foldl_handlePointermove_handling (es : List (ℚ × ℚ))
    (s : MoveLoopState) (h : s.handlingMove = true) :
    es.foldl handlePointermove s = s := by
  induction es with
  | nil => rfl
  | cons e es ih =>
    simp only [List.foldl_cons, handlePointermove, h, if_true]
    exact ih

lemma processBurst_cons (e : ℚ × ℚ) (es : List (ℚ × ℚ)) :
    processBurst (e :: es) =
      { handlingMove := false,
        dispatched := [(clampCoord e.1, clampCoord e.2)],
        scheduled := 0,
        drawCalls := 1 } := by
  unfold processBurst
  rw [List.foldl_cons, foldl_handlePointermove_handling es _ (by rfl)]
  rfl

/-- C6 (amended).  Within one animation frame, only the first pointer-move
of a burst is dispatched to the active per-state mutator — later events in
the frame are dropped entirely by the in-flight flag — and `drawCanvas`
runs exactly once when the frame fires. -/
theorem c6_first_move_only_single_draw (e : ℚ × ℚ) (es : List (ℚ × ℚ)) :
    (processBurst (e :: es)).dispatched = [(clampCoord e.1, clampCoord e.2)] ∧
    (processBurst (e :: es)).drawCalls = 1 := by
  rw [processBurst_cons]
  exact ⟨rfl, rfl⟩

/-- C6 counterexample.  Ten pointer-move events in one frame produce one
`drawCanvas` call, as the claim says, but only one of the ten events
reaches the mutator — the claim's "each event's coordinates are
dispatched" fails. -/
theorem c6_ten_moves_one_dispatch :
    (processBurst (List.replicate 10 ((5 : ℚ), (5 : ℚ)))).drawCalls = 1 ∧
    (processBurst (List.replicate 10 ((5 : ℚ), (5 : ℚ)))).dispatched.length ≠ 10 := by
  rw [show List.replicate 10 ((5 : ℚ), (5 : ℚ)) =
    ((5 : ℚ), (5 : ℚ)) :: List.replicate 9 ((5 : ℚ), (5 : ℚ)) from rfl]
  rw [processBurst_cons]
  exact ⟨rfl, by norm_num⟩

/-- C7 (amended).  Loading a new active image resets the rotation to `0`,
empties the Area, re-fits the transform to the viewport and clears the
mask and cut-mode flags, but the flip flags are *not* reset: they carry
over from the previous session. -/
theorem c7_loadImageFile_resets (s : EditorState) (imgW imgH cw ch : ℚ) :
    (loadImageFile s imgW imgH cw ch).rotation = 0 ∧
    (loadImageFile s imgW imgH cw ch).area = emptyArea ∧
    (loadImageFile s imgW imgH cw ch).transform =
      scaleImageToFitCanvas imgW imgH cw ch ∧
    (loadImageFile s imgW imgH cw ch).flip = s.flip ∧
    (loadImageFile s imgW imgH cw ch).cutModeEnabled = false ∧
    (loadImageFile s imgW imgH cw ch).keepMask = false := by
  exact ⟨rfl, rfl, rfl, rfl, rfl, rfl⟩

/-- A session state with the image flipped horizontally. -/
def flippedState : EditorState :=
  { rotation := 1, area := ⟨1, 2, 3, 4⟩, flip := ⟨-1, 1⟩,
    transform := ⟨1, 0, 0, 1, 0, 0⟩, keepMask := true,
    cutModeEnabled := true, cropBtnVisible := true }

/-- C7 counterexample.  Loading a new image from a session whose flip is
`{-1, 1}` leaves the flip at `{-1, 1}`: the claim's "Flip flags return to
`{1, 1}`" fails because `loadImageFile` never resets the flip module. -/
theorem c7_flip_not_reset :
    (loadImageFile flippedState 4 4 10 10).flip ≠ ⟨1, 1⟩ := by
  intro h
  have : (-1 : ℤ) = 1 := congrArg Flip.flipH h
  norm_num at this

/-- C8 (amended).  On pointer-up the crop affordance is enabled and
cursor-feedback tracking begins exactly when *both* Area dimensions are
non-zero; if either dimension is zero (not only when both are), the mask
flag is cleared, the cursor is reset and the crop panel is told to reset
its inputs. -/
theorem c8_pointerup_requires_both_dimensions (area : Area) (km : Bool) :
    ((area.width ≠ 0 ∧ area.height ≠ 0) →
      handlePointerup area km =
        { cropEnabled := true, cursorTracking := true, keepMask := km,
          cursorReset := false, cropPanelReset := false }) ∧
    ((area.width = 0 ∨ area.height = 0) →
      handlePointerup area km =
        { cropEnabled := false, cursorTracking := false, keepMask := false,
          cursorReset := true, cropPanelReset := true }) := by
  constructor
  · intro h
    rw [handlePointerup, if_pos h]
  · intro h
    rw [handlePointerup, if_neg (by rcases h with h | h <;> simp [h])]

/-- C8 witness: a `5 times 5` Area enables the crop affordance and keeps
the mask flag. -/
theorem c8_pointerup_requires_both_dimensions_witness :
    ((5 : ℚ) ≠ 0 ∧ (5 : ℚ) ≠ 0) ∧
    handlePointerup ⟨0, 0, 5, 5⟩ true =
      { cropEnabled := true, cursorTracking := true, keepMask := true,
        cursorReset := false, cropPanelReset := false } := by
  refine ⟨⟨by norm_num, by norm_num⟩, ?_⟩
  exact (c8_pointerup_requires_both_dimensions ⟨0, 0, 5, 5⟩ true).1
    ⟨by norm_num, by norm_num⟩

/-- C8 counterexample.  The Area `{0, 0, 5, 0}` is non-empty by the
claim's definition (only its height is zero), yet pointer-up does not
enable the crop affordance: it clears the mask and resets the panel, the
branch the claim reserves for the empty Area. -/
theorem c8_single_zero_dimension_clears :
    ¬((5 : ℚ) = 0 ∧ (0 : ℚ) = 0) ∧
    (handlePointerup ⟨0, 0, 5, 0⟩ true).cropEnabled = false ∧
    (handlePointerup ⟨0, 0, 5, 0⟩ true).cropPanelReset = true := by
  refine ⟨by norm_num, ?_, ?_⟩ <;> rfl

lemma doubleClickVertical_x (t : Transform) (imgH : ℚ) (dir : List Char)
    (area : Area) :
    (doubleClickVertical t imgH dir area).x = area.x ∧
    (doubleClickVertical t imgH dir area).width = area.width := by
  unfold doubleClickVertical
  split_ifs <;> exact ⟨rfl, rfl⟩

lemma doubleClickHorizontal_y (t : Transform) (imgW : ℚ) (dir : List Char)
    (area : Area) :
    (doubleClickHorizontal t imgW dir area).y = area.y ∧
    (doubleClickHorizontal t imgW dir area).height = area.height := by
  unfold doubleClickHorizontal
  split_ifs <;> exact ⟨rfl, rfl⟩

/-- C9.  A double-click with a drawn Area extends the edge named by the
last resize direction exactly to the matching boundary of the transformed
image (translation plus image dimension times scale), keeping the
opposite edge fixed; positive and negative extents are handled
symmetrically (the moving edge of a negative-extent rectangle lies on the
far side, so it snaps to the far boundary); with an empty (or undrawn)
Area nothing changes. -/
theorem c9_double_click_edge_snap (t : Transform) (imgW imgH : ℚ)
    (dir : List Char) (area : Area) :
    ((area.width = 0 ∨ area.height = 0) →
      handleDoubleClick t imgW imgH dir area = area) ∧
    (area.width ≠ 0 → area.height ≠ 0 →
      ('n' ∈ dir → 0 < area.height →
        (handleDoubleClick t imgW imgH dir area).y = t.f ∧
        (handleDoubleClick t imgW imgH dir area).y +
          (handleDoubleClick t imgW imgH dir area).height =
          area.y + area.height) ∧
      ('n' ∈ dir → area.height < 0 →
        (handleDoubleClick t imgW imgH dir area).y = imgH * t.a + t.f ∧
        (handleDoubleClick t imgW imgH dir area).y +
          (handleDoubleClick t imgW imgH dir area).height =
          area.y + area.height) ∧
      ('n' ∉ dir → 's' ∈ dir → 0 < area.height →
        (handleDoubleClick t imgW imgH dir area).y = area.y ∧
        (handleDoubleClick t imgW imgH dir area).y +
          (handleDoubleClick t imgW imgH dir area).height =
          t.f + imgH * t.a) ∧
      ('n' ∉ dir → 's' ∈ dir → area.height < 0 →
        (handleDoubleClick t imgW imgH dir area).y = area.y ∧
        (handleDoubleClick t imgW imgH dir area).y +
          (handleDoubleClick t imgW imgH dir area).height = t.f) ∧
      ('n' ∉ dir → 's' ∉ dir →
        (handleDoubleClick t imgW imgH dir area).y = area.y ∧
        (handleDoubleClick t imgW imgH dir area).height = area.height) ∧
      ('w' ∈ dir → 0 < area.width →
        (handleDoubleClick t imgW imgH dir area).x = t.e ∧
        (handleDoubleClick t imgW imgH dir area).x +
          (handleDoubleClick t imgW imgH dir area).width =
          area.x + area.width) ∧
      ('w' ∈ dir → area.width < 0 →
        (handleDoubleClick t imgW imgH dir area).x = imgW * t.a + t.e ∧
        (handleDoubleClick t imgW imgH dir area).x +
          (handleDoubleClick t imgW imgH dir area).width =
          area.x + area.width) ∧
      ('w' ∉ dir → 'e' ∈ dir → 0 < area.width →
        (handleDoubleClick t imgW imgH dir area).x = area.x ∧
        (handleDoubleClick t imgW imgH dir area).x +
          (handleDoubleClick t imgW imgH dir area).width =
          t.e + imgW * t.a) ∧
      ('w' ∉ dir → 'e' ∈ dir → area.width < 0 →
        (handleDoubleClick t imgW imgH dir area).x = area.x ∧
        (handleDoubleClick t imgW imgH dir area).x +
          (handleDoubleClick t imgW imgH dir area).width = t.e) ∧
      ('w' ∉ dir → 'e' ∉ dir →
        (handleDoubleClick t imgW imgH dir area).x = area.x ∧
        (handleDoubleClick t imgW imgH dir area).width = area.width)) := by
  constructor
  · intro h
    rw [handleDoubleClick, if_pos h]
  · intro hw hh
    have hr : handleDoubleClick t imgW imgH dir area =
        doubleClickHorizontal t imgW dir (doubleClickVertical t imgH dir area) := by
      rw [handleDoubleClick, if_neg (by tauto)]
    refine ⟨fun hn hpos => ?_, fun hn hneg => ?_, fun hn hs hpos => ?_,
      fun hn hs hneg => ?_, fun hn hs => ?_, fun hmw hpos => ?_,
      fun hmw hneg => ?_, fun hmw hme hpos => ?_, fun hmw hme hneg => ?_,
      fun hmw hme => ?_⟩ <;> rw [hr]
    · rw [(doubleClickHorizontal_y t imgW dir _).1,
        (doubleClickHorizontal_y t imgW dir _).2]
      unfold doubleClickVertical
      rw [if_pos hpos, if_pos hn]
      exact ⟨rfl, by dsimp only; ring⟩
    · rw [(doubleClickHorizontal_y t imgW dir _).1,
        (doubleClickHorizontal_y t imgW dir _).2]
      unfold doubleClickVertical
      rw [if_neg (by linarith), if_pos hn]
      exact ⟨rfl, by dsimp only; ring⟩
    · rw [(doubleClickHorizontal_y t imgW dir _).1,
        (doubleClickHorizontal_y t imgW dir _).2]
      unfold doubleClickVertical
      rw [if_pos hpos, if_neg hn, if_pos hs]
      exact ⟨rfl, by dsimp only; ring⟩
    · rw [(doubleClickHorizontal_y t imgW dir _).1,
        (doubleClickHorizontal_y t imgW dir _).2]
      unfold doubleClickVertical
      rw [if_neg (by linarith), if_neg hn, if_pos hs]
      exact ⟨rfl, by dsimp only; ring⟩
    · rw [(doubleClickHorizontal_y t imgW dir _).1,
        (doubleClickHorizontal_y t imgW dir _).2]
      unfold doubleClickVertical
      split_ifs <;> simp_all
    · unfold doubleClickHorizontal
      rw [(doubleClickVertical_x t imgH dir area).1,
        (doubleClickVertical_x t imgH dir area).2, if_pos hpos, if_pos hmw]
      exact ⟨rfl, by dsimp only; ring⟩
    · unfold doubleClickHorizontal
      rw [(doubleClickVertical_x t imgH dir area).1,
        (doubleClickVertical_x t imgH dir area).2, if_neg (by linarith),
        if_pos hmw]
      exact ⟨rfl, by dsimp only; ring⟩
    · unfold doubleClickHorizontal
      rw [(doubleClickVertical_x t imgH dir area).1,
        (doubleClickVertical_x t imgH dir area).2, if_pos hpos, if_neg hmw,
        if_pos hme]
      exact ⟨rfl, by dsimp only; ring⟩
    · unfold doubleClickHorizontal
      rw [(doubleClickVertical_x t imgH dir area).1,
        (doubleClickVertical_x t imgH dir area).2, if_neg (by linarith),
        if_neg hmw, if_pos hme]
      exact ⟨rfl, by dsimp only; ring⟩
    · unfold doubleClickHorizontal
      rw [(doubleClickVertical_x t imgH dir area).1,
        (doubleClickVertical_x t imgH dir area).2]
      split_ifs <;>
        simp_all [(doubleClickVertical_x t imgH dir area).1,
          (doubleClickVertical_x t imgH dir area).2]

/-- C9 witness: double-click with direction `nw` on the Area
`{10, 20, 30, 40}` under transform scale `2`, translation `(3, 5)` pins
the north edge to `y = 5` and the west edge to `x = 3`, keeping the south
and east edges fixed. -/
theorem c9_double_click_edge_snap_witness :
    ((30 : ℚ) ≠ 0 ∧ (40 : ℚ) ≠ 0 ∧ (0 : ℚ) < 40 ∧ (0 : ℚ) < 30) ∧
    (handleDoubleClick ⟨2, 0, 0, 2, 3, 5⟩ 100 80 ['n', 'w'] ⟨10, 20, 30, 40⟩).y = 5 ∧
    (handleDoubleClick ⟨2, 0, 0, 2, 3, 5⟩ 100 80 ['n', 'w'] ⟨10, 20, 30, 40⟩).y +
      (handleDoubleClick ⟨2, 0, 0, 2, 3, 5⟩ 100 80 ['n', 'w'] ⟨10, 20, 30, 40⟩).height = 20 + 40 ∧
    (handleDoubleClick ⟨2, 0, 0, 2, 3, 5⟩ 100 80 ['n', 'w'] ⟨10, 20, 30, 40⟩).x = 3 ∧
    (handleDoubleClick ⟨2, 0, 0, 2, 3, 5⟩ 100 80 ['n', 'w'] ⟨10, 20, 30, 40⟩).x +
      (handleDoubleClick ⟨2, 0, 0, 2, 3, 5⟩ 100 80 ['n', 'w'] ⟨10, 20, 30, 40⟩).width = 10 + 30 := by
  have h := c9_double_click_edge_snap ⟨2, 0, 0, 2, 3, 5⟩ 100 80 ['n', 'w']
    ⟨10, 20, 30, 40⟩
  have hd := h.2 (by norm_num) (by norm_num)
  have hv := hd.1 (by simp) (by norm_num)
  have hx := hd.2.2.2.2.2.1 (by simp) (by norm_num)
  exact ⟨⟨by norm_num, by norm_num, by norm_num, by norm_num⟩,
    hv.1, hv.2, hx.1, hx.2⟩

lemma foldl_handlePointermove_nonneg (es : List (ℚ × ℚ)) (s : MoveLoopState)
    (hs : ∀ q ∈ s.dispatched, 0 ≤ q.1 ∧ 0 ≤ q.2) :
    ∀ q ∈ (es.foldl handlePointermove s).dispatched, 0 ≤ q.1 ∧ 0 ≤ q.2 := by
  induction es generalizing s with
  | nil => exact hs
  | cons e es ih =>
    rw [List.foldl_cons]
    refine ih _ ?_
    unfold handlePointermove
    split_ifs with h
    · exact hs
    · intro q hq
      rcases List.mem_append.1 hq with hq | hq
      · exact hs q hq
      · rcases List.mem_singleton.1 hq with rfl
        refine ⟨?_, ?_⟩ <;> dsimp only <;> unfold clampCoord <;>
          split_ifs with hc <;> linarith

/-- C10.  Every coordinate pair a per-state mutator receives during a
burst of pointer-move events is component-wise non-negative: negative
client coordinates are clamped to `0` before dispatch. -/
theorem c10_dispatched_coordinates_nonneg (events : List (ℚ × ℚ))
    (p : ℚ × ℚ)
    (hp : p ∈ (events.foldl handlePointermove initMoveLoopState).dispatched) :
    0 ≤ p.1 ∧ 0 ≤ p.2 := by
  refine foldl_handlePointermove_nonneg events initMoveLoopState ?_ p hp
  intro q hq
  simp [initMoveLoopState] at hq

/-- C10 witness: the event `(-5, 3)` dispatches the clamped pair `(0, 3)`,
which is non-negative. -/
theorem c10_dispatched_coordinates_nonneg_witness :
    ((0 : ℚ), (3 : ℚ)) ∈
      (([((-5 : ℚ), (3 : ℚ))]).foldl handlePointermove
        initMoveLoopState).dispatched ∧
    (0 : ℚ) ≤ 0 ∧ (0 : ℚ) ≤ 3 := by
  have hmem : ((0 : ℚ), (3 : ℚ)) ∈
      (([((-5 : ℚ), (3 : ℚ))]).foldl handlePointermove
        initMoveLoopState).dispatched := by
    norm_num [handlePointermove, initMoveLoopState, clampCoord]
  exact ⟨hmem, c10_dispatched_coordinates_nonneg [((-5 : ℚ), (3 : ℚ))] _ hmem⟩

end ImageEditor
